import Mathlib

/-!
Shallow embedding of the core data transformations of `apputil.py`
(Titanic passenger-manifest analysis) and proofs about them.

The pandas DataFrame is modelled as a list of passenger rows plus
optional derived columns.  In-place column assignment (`df[col] = ...`)
is modelled by explicit state passing: every transform returns, next to
its result, the state of the caller's table after the call.  A raised
exception is modelled by `Except.error`.  Nullable numeric columns are
`Option ℚ`; the possibly-absent `Survived` column is modelled by the
table-level flag `hasSurvived`.
-/

deriving instance DecidableEq for Except

/-- One row of the source table (canonical Titanic columns). -/
structure Passenger where
  passengerId : Nat
  pclass : Nat
  name : String
  sex : String
  age : Option ℚ
  sibSp : Nat
  parch : Nat
  fare : Option ℚ
  survived : Bool
deriving DecidableEq

/-- A pandas DataFrame: source rows plus the derived columns that the
transforms of `apputil.py` may have materialized onto it.  `hasSurvived`
records whether the `Survived` column is present at all. -/
structure DataFrame where
  rows : List Passenger
  hasSurvived : Bool
  age_group : Option (List (Option Nat)) := none
  family_size : Option (List Nat) := none
  older_passenger : Option (List Bool) := none
deriving DecidableEq

/-- `np.diff(bins) > 0` check performed by `pd.cut`: the bin edges must be
strictly increasing, otherwise `pd.cut` raises. -/
def strictIncreasing : List ℚ → Bool
  | a :: b :: rest => decide (a < b) && strictIncreasing (b :: rest)
  | _ => true

/-- Per-value binning of `pd.cut(x, bins, right=True)` (without
`include_lowest`): `x` falls in band `i` iff `bins[i] < x ≤ bins[i+1]`;
values at or below the lowest edge, or above the highest edge, get no band. -/
def findBin : List ℚ → ℚ → Option Nat
  | b0 :: b1 :: rest, x =>
    if b0 < x ∧ x ≤ b1 then some 0
    else (findBin (b1 :: rest) x).map (fun i => i + 1)
  | _, _ => none

/-- `pd.cut` on a whole (nullable) column: raises when the edges are not
strictly increasing, otherwise bins each non-null value and propagates
nulls. -/
def pdCut (bins : List ℚ) (ages : List (Option ℚ)) : Except String (List (Option Nat)) :=
  if strictIncreasing bins then
    Except.ok (ages.map (fun a => a.bind (findBin bins)))
  else
    Except.error "bins must increase monotonically"

/-- `df['Age'].max()`: maximum over the non-null ages, `none` when there is
no non-null age (pandas would give `NaN`). -/
def ageMax (df : DataFrame) : Option ℚ :=
  (df.rows.filterMap (fun p => p.age)).foldl
    (fun acc a => match acc with
      | none => some a
      | some b => some (max b a)) none

/-- The `age_group` column computed by `survival_demographics`:
`pd.cut(df['Age'], bins=[0, 12, 19, 59, df['Age'].max()], right=True)`.
When every age is null, `df['Age'].max()` is `NaN` and `pd.cut` raises its
monotonicity error. -/
def demoBands (df : DataFrame) : Except String (List (Option Nat)) :=
  match ageMax df with
  | none => Except.error "bins must increase monotonically"
  | some m => pdCut [0, 12, 19, 59, m] (df.rows.map (fun p => p.age))

/-- First-occurrence deduplication (the key order produced by a pandas
hash-table grouping before sorting), accumulator version. -/
def dedupFirstAux [DecidableEq α] (seen : List α) : List α → List α
  | [] => []
  | a :: l => if a ∈ seen then dedupFirstAux seen l else a :: dedupFirstAux (a :: seen) l

/-- Distinct values of a list in order of first occurrence. -/
def dedupFirst [DecidableEq α] (l : List α) : List α :=
  dedupFirstAux [] l

/-- Ascending lexicographic order on the (Pclass, Sex, age-group-code)
group keys of `survival_demographics` (pandas `groupby(..., sort=True)`). -/
def keyLe3 (a b : Nat × String × Nat) : Prop :=
  a.1 < b.1 ∨ (a.1 = b.1 ∧ (a.2.1 < b.2.1 ∨ (a.2.1 = b.2.1 ∧ a.2.2 ≤ b.2.2)))

instance : DecidableRel keyLe3 := fun a b => by
  unfold keyLe3; exact inferInstance

/-- Ascending lexicographic order on the (Pclass, family_size) keys of
`family_groups`. -/
def keyLe2 (a b : Nat × Nat) : Prop :=
  a.1 < b.1 ∨ (a.1 = b.1 ∧ a.2 ≤ b.2)

instance : DecidableRel keyLe2 := fun a b => by
  unfold keyLe2; exact inferInstance

/-- Ascending lexicographic order on the (Pclass, older_passenger) keys of
the bonus view (`False < True` for booleans in pandas). -/
def keyLe2b (a b : Nat × Bool) : Prop :=
  a.1 < b.1 ∨ (a.1 = b.1 ∧ a.2 ≤ b.2)

instance : DecidableRel keyLe2b := fun a b => by
  unfold keyLe2b; exact inferInstance

/-- One output row of `survival_demographics`. -/
structure DemoRow where
  pclass : Nat
  sex : String
  age_group : Nat
  n_passengers : Nat
  n_survivors : Nat
  survival_rate : ℚ
deriving DecidableEq

/-- Group key of a (row, age-band) pair in `survival_demographics`. -/
def demoKey (x : Passenger × Nat) : Nat × String × Nat :=
  (x.1.pclass, x.1.sex, x.2)

/-- The aggregate row of one (Pclass, Sex, age_group) group:
`n_passengers=('PassengerId', 'count')`, `n_survivors=('Survived', 'sum')`,
then `survival_rate = n_survivors / n_passengers`. -/
def mkDemoRow (items : List (Passenger × Nat)) (k : Nat × String × Nat) : DemoRow :=
  let g := items.filter (fun x => decide (demoKey x = k))
  { pclass := k.1
    sex := k.2.1
    age_group := k.2.2
    n_passengers := g.length
    n_survivors := g.countP (fun x => x.1.survived)
    survival_rate := (g.countP (fun x => x.1.survived) : ℚ) / (g.length : ℚ) }

/-- The grouped aggregation of `survival_demographics`: pair each row with
its age band, drop the rows whose band is null (`groupby` drops null keys),
group by the occurring (Pclass, Sex, age_group) keys sorted ascending, and
build one aggregate row per group. -/
def demoAgg (rows : List Passenger) (bands : List (Option Nat)) : List DemoRow :=
  let items := (rows.zip bands).filterMap (fun x => x.2.map (fun b => (x.1, b)))
  let ks := List.insertionSort keyLe3 (dedupFirst (items.map demoKey))
  ks.map (mkDemoRow items)

/-- `survival_demographics(df)`: assigns the `age_group` column onto the
caller's table, then groups the banded rows by (Pclass, Sex, age_group)
with `observed=True` (null bands are dropped from the grouping, only
occurring key combinations appear) and aggregates; selecting the absent
`Survived` column raises a `KeyError`.  The second component is the state
of the caller's table after the call. -/
def survival_demographics (df : DataFrame) :
    Except String (List DemoRow) × DataFrame :=
  match demoBands df with
  | Except.error e => (Except.error e, df)
  | Except.ok bands =>
    let df' := { df with age_group := some bands }
    if df.hasSurvived then
      (Except.ok (demoAgg df.rows bands), df')
    else
      (Except.error "KeyError: Survived", df')

/-- Mean of a list of rationals, `none` on the empty list (pandas `NaN`). -/
def listMean (l : List ℚ) : Option ℚ :=
  match l with
  | [] => none
  | _ => some ((l.foldr (fun a b => a + b) 0) / (l.length : ℚ))

/-- Minimum of a list of rationals, `none` on the empty list. -/
def listMin (l : List ℚ) : Option ℚ :=
  match l with
  | [] => none
  | a :: t => some (t.foldl min a)

/-- Maximum of a list of rationals, `none` on the empty list. -/
def listMax (l : List ℚ) : Option ℚ :=
  match l with
  | [] => none
  | a :: t => some (t.foldl max a)

/-- One output row of `family_groups`. -/
structure FamRow where
  pclass : Nat
  family_size : Nat
  n_passengers : Nat
  avg_fare : Option ℚ
  min_fare : Option ℚ
  max_fare : Option ℚ
deriving DecidableEq

/-- `family_groups(df)`: assigns `family_size = SibSp + Parch + 1` onto the
caller's table, groups by (Pclass, family_size) and computes the fare
statistics over the non-null fares of each group. -/
def family_groups (df : DataFrame) : List FamRow × DataFrame :=
  let fs := df.rows.map (fun p => p.sibSp + p.parch + 1)
  let df' := { df with family_size := some fs }
  let items := df.rows.zip fs
  let ks := List.insertionSort keyLe2
    (dedupFirst (items.map (fun x => (x.1.pclass, x.2))))
  (ks.map (fun k =>
    let g := items.filter (fun x => decide ((x.1.pclass, x.2) = k))
    let fares := g.filterMap (fun x => x.1.fare)
    { pclass := k.1
      family_size := k.2
      n_passengers := g.length
      avg_fare := listMean fares
      min_fare := listMin fares
      max_fare := listMax fares }), df')

/-- `lambda name: name.split(',')[0]` — the characters before the first
comma; the whole string when there is no comma.  No whitespace stripping. -/
def splitFirstComma (s : String) : String :=
  String.mk (s.toList.takeWhile (fun c => c ≠ ','))

/-- Python's `str.strip()`: drop whitespace from both ends (used to state
the spec's trimming requirement; the code never calls it). -/
def pyStrip (s : String) : String :=
  String.mk (((s.toList.dropWhile Char.isWhitespace).reverse.dropWhile
    Char.isWhitespace).reverse)

/-- Descending-count order on (last name, count) pairs. -/
def countGe (a b : String × Nat) : Prop := b.2 ≤ a.2

instance : DecidableRel countGe := fun a b => by
  unfold countGe; exact inferInstance

instance : IsTotal (String × Nat) countGe :=
  ⟨fun a b => by unfold countGe; exact Nat.le_total b.2 a.2⟩

instance : IsTrans (String × Nat) countGe :=
  ⟨fun _ _ _ h1 h2 => by unfold countGe at h1 h2 ⊢; exact Nat.le_trans h2 h1⟩

/-- The extracted last-name column of `last_names`. -/
def lastNameList (df : DataFrame) : List String :=
  df.rows.map (fun p => splitFirstComma p.name)

/-- `last_names(df)`: extract each last name, then `value_counts()` —
distinct values in order of first occurrence, each with its occurrence
count, stably sorted by count descending. -/
def last_names (df : DataFrame) : List (String × Nat) :=
  let l := lastNameList df
  List.insertionSort countGe ((dedupFirst l).map (fun s => (s, l.count s)))

/-- The non-null ages of the passengers of class `c`
(`df.groupby('Pclass')['Age']` with nulls skipped). -/
def classAges (df : DataFrame) (c : Nat) : List ℚ :=
  (df.rows.filter (fun p => decide (p.pclass = c))).filterMap (fun p => p.age)

/-- pandas `median` of a column: sort, take the middle element (odd length)
or the average of the two middle elements (even length); `NaN` (here
`none`) for an empty column. -/
def median (xs : List ℚ) : Option ℚ :=
  let s := List.insertionSort (fun a b : ℚ => a ≤ b) xs
  if s.length % 2 = 1 then s.get? (s.length / 2)
  else
    match s.get? (s.length / 2 - 1), s.get? (s.length / 2) with
    | some a, some b => some ((a + b) / 2)
    | _, _ => none

/-- `df['Age'] > median_ages` for one row: pandas comparison with `NaN`
on either side yields `False`, never null. -/
def olderFlag (m : Option ℚ) (a : Option ℚ) : Bool :=
  match a, m with
  | some x, some mv => decide (mv < x)
  | _, _ => false

/-- The `older_passenger` column computed by `determine_age_division`:
each row's age compared against the median age of its own class. -/
def olderColumn (df : DataFrame) : List Bool :=
  df.rows.map (fun p => olderFlag (median (classAges df p.pclass)) p.age)

/-- `determine_age_division(df)`: writes the `older_passenger` column onto
the table it is given and returns that same (mutated) table. -/
def determine_age_division (df : DataFrame) : DataFrame :=
  { df with older_passenger := some (olderColumn df) }

/-- One row of the aggregated data of the bonus view
(`groupby(['Pclass', 'older_passenger'])['Survived'].mean()`). -/
structure BonusRow where
  pclass : Nat
  older_passenger : Bool
  survived : ℚ
deriving DecidableEq

/-- The aggregate row of one (Pclass, older_passenger) group of the bonus
view: the mean of `Survived` over the group. -/
def mkBonusRow (items : List (Passenger × Bool)) (k : Nat × Bool) : BonusRow :=
  let g := items.filter (fun x => decide ((x.1.pclass, x.2) = k))
  { pclass := k.1
    older_passenger := k.2
    survived := (g.countP (fun x => x.1.survived) : ℚ) / (g.length : ℚ) }

/-- The grouped aggregation of the bonus view: group the rows, each paired
with its `older_passenger` flag, by the occurring (Pclass, older_passenger)
keys sorted ascending, and take the mean of `Survived` per group. -/
def bonusAgg (items : List (Passenger × Bool)) : List BonusRow :=
  let ks := List.insertionSort keyLe2b
    (dedupFirst (items.map (fun x => (x.1.pclass, x.2))))
  ks.map (mkBonusRow items)

/-- The data preparation of `visualize_family_size(df)`: it calls
`determine_age_division(df.copy())`, so the caller's table is returned
unchanged as the second component; the grouped survival means are computed
from the mutated copy, whose rows and `older_passenger` column it groups
by (Pclass, older_passenger); selecting the absent `Survived` column
raises a `KeyError`. -/
def visualize_family_size (df : DataFrame) :
    Except String (List BonusRow) × DataFrame :=
  if df.hasSurvived then
    (Except.ok (bonusAgg ((determine_age_division df).rows.zip (olderColumn df))), df)
  else
    (Except.error "KeyError: Survived", df)

/-- Number of rows of class `c` that `determine_age_division` labels
strictly above the class median. -/
def countAbove (df : DataFrame) (c : Nat) : Nat :=
  ((df.rows.zip (olderColumn df)).filter
    (fun q => decide (q.1.pclass = c) && q.2)).length

/-! ### Concrete input tables used by witnesses and counterexamples -/

/-- Two passengers, one aged exactly 0 (the minimum bin edge) and one aged
80 (the data maximum). -/
def dfC1 : DataFrame :=
  { rows := [⟨1, 1, "A, a", "female", some 0, 0, 0, some 10, true⟩,
             ⟨2, 1, "B, b", "male", some 80, 0, 0, some 10, true⟩]
    hasSurvived := true }

/-- A single passenger, age 70 so that the data-dependent bin edges are
valid. -/
def dfC2 : DataFrame :=
  { rows := [⟨1, 1, "C, c", "female", some 70, 1, 2, some 10, true⟩]
    hasSurvived := true }

/-- First passenger of `dfC3` (age null). -/
def pC3a : Passenger := ⟨1, 1, "D, d", "female", none, 0, 0, some 5, true⟩

/-- Second passenger of `dfC3` (age null). -/
def pC3b : Passenger := ⟨2, 1, "E, e", "male", none, 0, 0, some 5, false⟩

/-- A table whose every row has a null age. -/
def dfC3 : DataFrame := { rows := [pC3a, pC3b], hasSurvived := true }

/-- A table from which the `Survived` column is entirely absent. -/
def dfC4 : DataFrame :=
  { rows := [⟨1, 1, "F, f", "female", some 70, 0, 0, some 5, true⟩]
    hasSurvived := false }

/-- A one-passenger table with `Survived` present and a valid age maximum. -/
def dfC5 : DataFrame :=
  { rows := [⟨1, 1, "G, g", "female", some 70, 0, 0, some 5, true⟩]
    hasSurvived := true }

/-- The row list actually returned by `survival_demographics` on `dfC5`. -/
def outC5 : List DemoRow := ((survival_demographics dfC5).1.toOption).getD []

/-- The first aggregate row of `outC5`. -/
def rC5 : DemoRow := outC5.headD ⟨0, "", 0, 0, 0, 0⟩

/-- Class 2 has ages 30, 40 and a null; class 3 has the single age 20 (so
its median equals 20 exactly). -/
def dfC6 : DataFrame :=
  { rows := [⟨1, 2, "H, h", "female", some 30, 0, 0, some 5, true⟩,
             ⟨2, 2, "I, i", "male", some 40, 0, 0, some 5, false⟩,
             ⟨3, 2, "J, j", "male", none, 0, 0, some 5, true⟩,
             ⟨4, 3, "K, k", "female", some 20, 0, 0, some 5, true⟩]
    hasSurvived := true }

/-- Two passengers with distinct last names of equal frequency, the
alphabetically larger one first. -/
def dfC8 : DataFrame :=
  { rows := [⟨1, 1, "Zeta, A", "female", some 30, 0, 0, some 5, true⟩,
             ⟨2, 1, "Alpha, B", "male", some 30, 0, 0, some 5, true⟩]
    hasSurvived := true }

/-- A single passenger aged 50, so that `df['Age'].max()` is at most 59. -/
def dfC9 : DataFrame :=
  { rows := [⟨1, 1, "L, l", "female", some 50, 0, 0, some 5, true⟩]
    hasSurvived := true }

/-! ### Helper lemmas -/

theorem mem_of_mem_dedupFirstAux [DecidableEq α] {x : α} :
    ∀ (seen l : List α), x ∈ dedupFirstAux seen l → x ∈ l := by
  intro seen l
  induction l generalizing seen with
  | nil => intro h; exact absurd h (List.not_mem_nil x)
  | cons a t ih =>
    intro h
    simp only [dedupFirstAux] at h
    by_cases ha : a ∈ seen
    · simp only [if_pos ha] at h
      exact List.mem_cons_of_mem a (ih seen h)
    · simp only [if_neg ha, List.mem_cons] at h
      rcases h with h | h
      · exact h ▸ List.mem_cons_self a t
      · exact List.mem_cons_of_mem a (ih (a :: seen) h)

theorem mem_dedupFirstAux_of_mem [DecidableEq α] {x : α} :
    ∀ (seen l : List α), x ∈ l → x ∈ seen ∨ x ∈ dedupFirstAux seen l := by
  intro seen l
  induction l generalizing seen with
  | nil => intro h; exact absurd h (List.not_mem_nil x)
  | cons a t ih =>
    intro h
    rcases List.mem_cons.mp h with rfl | ht
    · by_cases ha : x ∈ seen
      · exact Or.inl ha
      · right; simp only [dedupFirstAux, if_neg ha]; exact List.mem_cons_self x _
    · by_cases ha : a ∈ seen
      · simpa only [dedupFirstAux, if_pos ha] using ih seen ht
      · simp only [dedupFirstAux, if_neg ha]
        rcases ih (a :: seen) ht with hs | hd
        · rcases List.mem_cons.mp hs with rfl | hs
          · exact Or.inr (List.mem_cons_self x _)
          · exact Or.inl hs
        · exact Or.inr (List.mem_cons_of_mem a hd)

theorem mem_dedupFirst [DecidableEq α] {x : α} {l : List α} :
    x ∈ dedupFirst l ↔ x ∈ l := by
  constructor
  · exact mem_of_mem_dedupFirstAux [] l
  · intro h
    rcases mem_dedupFirstAux_of_mem [] l h with hs | hd
    · exact absurd hs (List.not_mem_nil x)
    · exact hd

theorem zip_map_self (g : α → β) :
    ∀ l : List α, l.zip (l.map g) = l.map (fun a => (a, g a)) := by
  intro l
  induction l with
  | nil => rfl
  | cons a t ih => simp only [List.map_cons, List.zip_cons_cons, ih]

theorem takeWhile_eq_self_of_forall {α : Type} {p : α → Bool} :
    ∀ {l : List α}, (∀ c ∈ l, p c = true) → l.takeWhile p = l := by
  intro l
  induction l with
  | nil => intro _; rfl
  | cons a t ih =>
    intro h
    have ha : p a = true := h a (List.mem_cons_self a t)
    simp only [List.takeWhile_cons, ha, if_true]
    rw [ih (fun c hc => h c (List.mem_cons_of_mem a hc))]

/-- In a `(· ≤ ·)`-sorted list, every element of `take j` is bounded by the
element at position `j - 1`. -/
theorem sorted_take_le {s : List ℚ} (hs : s.Sorted (fun a b : ℚ => a ≤ b))
    {j : Nat} (hj1 : 1 ≤ j) (hjl : j ≤ s.length) {m : ℚ}
    (hm : ∀ h : j - 1 < s.length, s.get ⟨j - 1, h⟩ ≤ m) :
    ∀ x ∈ s.take j, x ≤ m := by
  intro x hx
  rcases List.mem_iff_get.mp hx with ⟨⟨i, hi⟩, hget⟩
  have hit : i < (s.take j).length := hi
  have hlen : (s.take j).length = min j s.length := List.length_take j s
  have hij : i < j := by omega
  have hisl : i < s.length := by omega
  have hjm1 : j - 1 < s.length := by omega
  have hgt : (s.take j).get ⟨i, hi⟩ = s.get ⟨i, hisl⟩ := by
    simp [List.get_eq_getElem]
  have hle : s.get ⟨i, hisl⟩ ≤ s.get ⟨j - 1, hjm1⟩ := by
    have : (⟨i, hisl⟩ : Fin s.length) ≤ ⟨j - 1, hjm1⟩ := by
      simp only [Fin.mk_le_mk]; omega
    exact hs.rel_get_of_le this
  calc x = s.get ⟨i, hisl⟩ := by rw [← hget, hgt]
    _ ≤ s.get ⟨j - 1, hjm1⟩ := hle
    _ ≤ m := hm hjm1

/-- Core median property: at most half of the values lie strictly above
the median. -/
theorem median_count_above {xs : List ℚ} {m : ℚ} (h : median xs = some m) :
    2 * xs.countP (fun a => decide (m < a)) ≤ xs.length := by
  classical
  set s := List.insertionSort (fun a b : ℚ => a ≤ b) xs with hs_def
  have hperm : s.Perm xs := List.perm_insertionSort _ xs
  have hsorted : s.Sorted (fun a b : ℚ => a ≤ b) :=
    List.sorted_insertionSort (fun a b : ℚ => a ≤ b) xs
  have hcnt : xs.countP (fun a => decide (m < a)) = s.countP (fun a => decide (m < a)) :=
    (hperm.countP_eq _).symm
  have hlen : xs.length = s.length := hperm.length_eq.symm
  rw [hcnt, hlen]
  set n := s.length with hn_def
  -- j: the number of leading elements of the sorted list known to be ≤ m
  set j := (n + 1) / 2 with hj_def
  have hn0 : n ≠ 0 := by
    intro h0
    have hsnil : s = [] := List.length_eq_zero.mp h0
    rw [median, ← hs_def, hsnil] at h
    simp at h
  have hj1 : 1 ≤ j := by omega
  have hjn : j ≤ n := by omega
  have hbound : ∀ h' : j - 1 < s.length, s.get ⟨j - 1, h'⟩ ≤ m := by
    intro h'
    rw [median, ← hs_def, ← hn_def] at h
    by_cases hodd : n % 2 = 1
    · rw [if_pos hodd] at h
      have hidx : n / 2 < n := by omega
      have hidx' : j - 1 = n / 2 := by omega
      rw [List.get?_eq_get hidx] at h
      have hm' : s.get ⟨n / 2, hidx⟩ = m := by
        simpa using h
      have hget' : s.get ⟨j - 1, h'⟩ = s.get ⟨n / 2, hidx⟩ := by
        congr 1; exact Fin.ext hidx'
      rw [hget', hm']
    · rw [if_neg hodd] at h
      have hidx1 : n / 2 - 1 < n := by omega
      have hidx2 : n / 2 < n := by omega
      rw [List.get?_eq_get hidx1, List.get?_eq_get hidx2] at h
      have hmval : m = (s.get ⟨n / 2 - 1, hidx1⟩ + s.get ⟨n / 2, hidx2⟩) / 2 := by
        have := h
        simp at this
        exact this.symm
      have hsle : s.get ⟨n / 2 - 1, hidx1⟩ ≤ s.get ⟨n / 2, hidx2⟩ := by
        have : (⟨n / 2 - 1, hidx1⟩ : Fin s.length) ≤ ⟨n / 2, hidx2⟩ := by
          simp only [Fin.mk_le_mk]; omega
        exact hsorted.rel_get_of_le this
      have hidx' : j - 1 = n / 2 - 1 := by omega
      have : s.get ⟨j - 1, h'⟩ = s.get ⟨n / 2 - 1, hidx1⟩ := by
        congr 1; exact Fin.ext hidx'
      rw [this, hmval]
      linarith
  have htake : ∀ x ∈ s.take j, x ≤ m := sorted_take_le hsorted hj1 hjn hbound
  have hzero : (s.take j).countP (fun a => decide (m < a)) = 0 := by
    rw [List.countP_eq_zero]
    intro a ha
    simpa using not_lt.mpr (htake a ha)
  have hsplit : s.countP (fun a => decide (m < a)) =
      (s.take j).countP (fun a => decide (m < a)) +
      (s.drop j).countP (fun a => decide (m < a)) := by
    rw [← List.countP_append, List.take_append_drop]
  have hdrop : (s.drop j).countP (fun a => decide (m < a)) ≤ n - j := by
    calc (s.drop j).countP (fun a => decide (m < a)) ≤ (s.drop j).length :=
          List.countP_le_length _
      _ = n - j := by rw [List.length_drop]
  rw [hsplit, hzero]
  omega

example : findBin [0, 12, 19, 59, 80] 12 = some 0 := by decide
example : findBin [0, 12, 19, 59, 80] 0 = none := by decide
example : findBin [0, 12, 19, 59, 80] 60 = some 3 := by decide
example : strictIncreasing [0, 12, 19, 59, 50] = false := by decide
example : median [30, 40, 20] = some 30 := by decide
example : median [20] = some 20 := by decide
example : median [] = none := by decide
example : splitFirstComma "Smith, John" = "Smith" := by decide
example : pyStrip "  a b " = "a b" := by decide

/-- The state of the caller's table after `survival_demographics`:
unchanged when `pd.cut` raised, otherwise with the `age_group` column
assigned (whether or not the later aggregation raised a `KeyError`). -/
theorem survival_demographics_snd (df : DataFrame) :
    (survival_demographics df).2 = (match demoBands df with
      | Except.error _ => df
      | Except.ok bands => { df with age_group := some bands }) := by
  unfold survival_demographics
  cases demoBands df with
  | error e => rfl
  | ok bands => cases h : df.hasSurvived <;> simp [h]

/-- The result component of `survival_demographics`: the binning error when
`pd.cut` raised, a `KeyError` when `Survived` is absent, and the grouped
aggregation otherwise. -/
theorem survival_demographics_fst (df : DataFrame) :
    (survival_demographics df).1 = (match demoBands df with
      | Except.error e => Except.error e
      | Except.ok bands =>
        if df.hasSurvived then Except.ok (demoAgg df.rows bands)
        else Except.error "KeyError: Survived") := by
  unfold survival_demographics
  cases demoBands df with
  | error e => rfl
  | ok bands => cases h : df.hasSurvived <;> simp [h]

/-- Membership in a grouped aggregation implies the group is the non-empty
filter of the items by its key (specialised to `demoAgg`). -/
theorem demoAgg_mem {rows : List Passenger} {bands : List (Option Nat)}
    {r : DemoRow} (hr : r ∈ demoAgg rows bands) :
    ∃ k, r = mkDemoRow
        ((rows.zip bands).filterMap (fun x => x.2.map (fun b => (x.1, b)))) k
      ∧ 0 < (((rows.zip bands).filterMap
          (fun x => x.2.map (fun b => (x.1, b)))).filter
            (fun y => decide (demoKey y = k))).length := by
  unfold demoAgg at hr
  rcases List.mem_map.mp hr with ⟨k, hk, rfl⟩
  have hk2 : k ∈ ((rows.zip bands).filterMap
      (fun x => x.2.map (fun b => (x.1, b)))).map demoKey :=
    mem_dedupFirst.mp ((List.mem_insertionSort keyLe3).mp hk)
  rcases List.mem_map.mp hk2 with ⟨x, hx, hxk⟩
  have hxg : x ∈ ((rows.zip bands).filterMap
      (fun x => x.2.map (fun b => (x.1, b)))).filter
        (fun y => decide (demoKey y = k)) :=
    List.mem_filter.mpr ⟨hx, by rw [hxk]; simp⟩
  exact ⟨k, rfl, List.length_pos.mpr (List.ne_nil_of_mem hxg)⟩

/-! ### The claims -/

/-- C10 (confirmed): `visualize_family_size` applies `determine_age_division`
to a copy of its argument, so the caller's table is returned unchanged (in
particular it gains no `older_passenger` column), even though
`determine_age_division` itself writes that column onto the table it is
given. -/
theorem visualize_family_size_leaves_input_unchanged (df : DataFrame) :
    (visualize_family_size df).2 = df
    ∧ (determine_age_division df).older_passenger = some (olderColumn df) := by
  constructor
  · unfold visualize_family_size
    cases h : df.hasSurvived <;> simp [h]
  · rfl

/-- C2 (counterexample): on a concrete table, every one of the three core
transforms returns a table different from the one passed in — each has
materialized its derived column onto the caller's table, so the claim that
the caller's table is unchanged is false. -/
theorem transforms_mutate_counterexample :
    (survival_demographics dfC2).2 ≠ dfC2
    ∧ (family_groups dfC2).2 ≠ dfC2
    ∧ determine_age_division dfC2 ≠ dfC2 := by
  refine ⟨by decide, by decide, by decide⟩

/-- C2 (amended): each core transform mutates the caller's table by
materializing exactly its derived column (`age_group`, `family_size`,
`older_passenger` respectively) onto it; all pre-existing columns and
values are left unchanged. -/
theorem transforms_mutate_only_derived_column (df : DataFrame) :
    ((survival_demographics df).2.rows = df.rows
      ∧ (survival_demographics df).2.hasSurvived = df.hasSurvived
      ∧ (survival_demographics df).2.family_size = df.family_size
      ∧ (survival_demographics df).2.older_passenger = df.older_passenger)
    ∧ ((family_groups df).2.rows = df.rows
      ∧ (family_groups df).2.hasSurvived = df.hasSurvived
      ∧ (family_groups df).2.age_group = df.age_group
      ∧ (family_groups df).2.older_passenger = df.older_passenger
      ∧ (family_groups df).2.family_size
          = some (df.rows.map (fun p => p.sibSp + p.parch + 1)))
    ∧ ((determine_age_division df).rows = df.rows
      ∧ (determine_age_division df).hasSurvived = df.hasSurvived
      ∧ (determine_age_division df).age_group = df.age_group
      ∧ (determine_age_division df).family_size = df.family_size
      ∧ (determine_age_division df).older_passenger = some (olderColumn df))
    ∧ (∀ bands, demoBands df = Except.ok bands →
        (survival_demographics df).2.age_group = some bands) := by
  refine ⟨⟨?_, ?_, ?_, ?_⟩, ⟨rfl, rfl, rfl, rfl, rfl⟩, ⟨rfl, rfl, rfl, rfl, rfl⟩, ?_⟩
  · rw [survival_demographics_snd]; cases demoBands df <;> rfl
  · rw [survival_demographics_snd]; cases demoBands df <;> rfl
  · rw [survival_demographics_snd]; cases demoBands df <;> rfl
  · rw [survival_demographics_snd]; cases demoBands df <;> rfl
  · intro bands hb
    rw [survival_demographics_snd, hb]

/-- C2 (witness): concrete instantiation of the amended claim at `dfC2`:
the banding succeeded and the caller's table now carries the `age_group`
column. -/
theorem transforms_mutate_only_derived_column_witness :
    (survival_demographics dfC2).2.age_group = some [some 3] :=
  (transforms_mutate_only_derived_column dfC2).2.2.2 [some 3] (by decide)

/-- C4 (counterexample): on a concrete table without the `Survived` column
(and with a valid age maximum), the demographic survival view raises a
`KeyError` instead of degrading to a passenger-count-only view, and so does
the median-age-division view. -/
theorem missing_survived_counterexample :
    dfC4.hasSurvived = false
    ∧ (survival_demographics dfC4).1 = Except.error "KeyError: Survived"
    ∧ (visualize_family_size dfC4).1 = Except.error "KeyError: Survived" := by
  refine ⟨rfl, by decide, by decide⟩

/-- C4 (amended): when the `Survived` column is entirely absent, each
survival-dependent aggregation view raises (a `KeyError` — or, for the
demographic view, the earlier binning error when that one fires first)
rather than degrading to a passenger-count-only view. -/
theorem missing_survived_raises (df : DataFrame) (h : df.hasSurvived = false) :
    (∀ out, (survival_demographics df).1 ≠ Except.ok out)
    ∧ (visualize_family_size df).1 = Except.error "KeyError: Survived" := by
  constructor
  · intro out hout
    unfold survival_demographics at hout
    rcases hdb : demoBands df with e | bands
    · rw [hdb] at hout; simp at hout
    · rw [hdb] at hout; simp [h] at hout
  · unfold visualize_family_size
    simp [h]

/-- C4 (witness): the amended claim applied to the concrete table `dfC4`. -/
theorem missing_survived_raises_witness :
    (visualize_family_size dfC4).1 = Except.error "KeyError: Survived" :=
  (missing_survived_raises dfC4 rfl).2

/-- C9 (confirmed): the data-dependent bin edges `[0, 12, 19, 59, max(Age)]`
are strictly increasing exactly when the maximum non-null age exceeds 59;
the binning step succeeds iff that holds, and whenever the maximum age is
at most 59 — or there is no non-null age at all — `survival_demographics`
raises the `pd.cut` monotonicity error instead of returning a table. -/
theorem survival_demographics_needs_senior_max (df : DataFrame) :
    ((∃ bands, demoBands df = Except.ok bands)
      ↔ (∃ m : ℚ, ageMax df = some m ∧ 59 < m))
    ∧ (ageMax df = none →
        (survival_demographics df).1
          = Except.error "bins must increase monotonically")
    ∧ (∀ m : ℚ, ageMax df = some m → m ≤ 59 →
        (survival_demographics df).1
          = Except.error "bins must increase monotonically") := by
  rcases hA : ageMax df with _ | m0
  · have hdb : demoBands df = Except.error "bins must increase monotonically" := by
      unfold demoBands; rw [hA]
    refine ⟨⟨?_, ?_⟩, ?_, ?_⟩
    · rintro ⟨bands, hb⟩
      rw [hdb] at hb; exact absurd hb (by simp)
    · rintro ⟨m, hm, _⟩
      exact absurd hm (by simp)
    · intro _
      unfold survival_demographics
      rw [hdb]
    · intro m hm _
      exact absurd hm (by simp)
  · have d1 : decide ((0 : ℚ) < 12) = true := decide_eq_true (by norm_num)
    have d2 : decide ((12 : ℚ) < 19) = true := decide_eq_true (by norm_num)
    have d3 : decide ((19 : ℚ) < 59) = true := decide_eq_true (by norm_num)
    have hmono : strictIncreasing [0, 12, 19, 59, m0] = decide ((59 : ℚ) < m0) := by
      simp [strictIncreasing, d1, d2, d3]
    have hpd : demoBands df = (if strictIncreasing [0, 12, 19, 59, m0] = true
        then Except.ok ((df.rows.map (fun p => p.age)).map
          (fun a => a.bind (findBin [0, 12, 19, 59, m0])))
        else Except.error "bins must increase monotonically") := by
      unfold demoBands
      rw [hA]
      rfl
    by_cases h59 : (59 : ℚ) < m0
    · have hok : demoBands df = Except.ok
          ((df.rows.map (fun p => p.age)).map
            (fun a => a.bind (findBin [0, 12, 19, 59, m0]))) := by
        rw [hpd, hmono, decide_eq_true h59]
        simp
      refine ⟨⟨fun _ => ⟨m0, rfl, h59⟩, fun _ => ⟨_, hok⟩⟩, ?_, ?_⟩
      · intro hnone; exact absurd hnone (by simp)
      · intro m hm hle
        exfalso
        injection hm with hm
        rw [← hm] at hle
        exact absurd h59 (not_lt.mpr hle)
    · have herr : demoBands df = Except.error "bins must increase monotonically" := by
        rw [hpd, hmono, decide_eq_false h59]
        simp
      refine ⟨⟨?_, ?_⟩, ?_, ?_⟩
      · rintro ⟨bands, hb⟩
        rw [herr] at hb; exact absurd hb (by simp)
      · rintro ⟨m, hm, hlt⟩
        exfalso
        injection hm with hm
        rw [← hm] at hlt
        exact absurd hlt h59
      · intro hnone; exact absurd hnone (by simp)
      · intro m hm hle
        unfold survival_demographics
        rw [herr]

/-- C9 (witness): on the concrete table `dfC9` (maximum age 50 ≤ 59), the
function raises the monotonicity error. -/
theorem survival_demographics_needs_senior_max_witness :
    (survival_demographics dfC9).1
      = Except.error "bins must increase monotonically" :=
  (survival_demographics_needs_senior_max dfC9).2.2 50 (by decide) (by norm_num)

/-- C5 (confirmed): every group row produced by `survival_demographics` has
at least one passenger (groups arise only from occurring key combinations,
so no zero-passenger group exists and no division by zero or silent
zero-rate can occur), its survivor count never exceeds its passenger count,
and its survival rate lies in `[0, 1]`. -/
theorem survival_demographics_rate_bounds (df : DataFrame)
    (out : List DemoRow) (r : DemoRow)
    (hout : (survival_demographics df).1 = Except.ok out) (hr : r ∈ out) :
    1 ≤ r.n_passengers ∧ r.n_survivors ≤ r.n_passengers
    ∧ 0 ≤ r.survival_rate ∧ r.survival_rate ≤ 1 := by
  rw [survival_demographics_fst] at hout
  split at hout
  · exact absurd hout (by simp)
  · split at hout
    · replace hout : demoAgg df.rows _ = out := Except.ok.inj hout
      subst hout
      rcases demoAgg_mem hr with ⟨k, rfl, hpos⟩
      unfold mkDemoRow
      refine ⟨hpos, List.countP_le_length _, div_nonneg ?_ ?_, ?_⟩
      · exact Nat.cast_nonneg _
      · exact Nat.cast_nonneg _
      · rw [div_le_one (by exact_mod_cast hpos)]
        exact_mod_cast List.countP_le_length _
    · exact absurd hout (by simp)

/-- C5 (witness): the bounds hold for the concrete aggregate row `rC5`
that `survival_demographics` computes on the one-passenger table `dfC5`. -/
theorem survival_demographics_rate_bounds_witness :
    1 ≤ rC5.n_passengers ∧ rC5.n_survivors ≤ rC5.n_passengers
    ∧ 0 ≤ rC5.survival_rate ∧ rC5.survival_rate ≤ 1 :=
  survival_demographics_rate_bounds dfC5 outC5 rC5 rfl (List.mem_cons_self _ _)

/-- C6 (confirmed): within every class partition, the rows that
`determine_age_division` labels strictly above the class median are at most
half of the partition (`2 · countAbove ≤ partition size`), and a passenger
whose age equals the class median exactly is classified not-above
(the median itself being the sorted middle element, or the average of the
two middle elements for even-sized partitions, over non-null ages). -/
theorem determine_age_division_median_bound (df : DataFrame) (c : Nat) :
    2 * countAbove df c
      ≤ (df.rows.filter (fun p => decide (p.pclass = c))).length
    ∧ (∀ x : ℚ, median (classAges df c) = some x →
        olderFlag (median (classAges df c)) (some x) = false) := by
  constructor
  · have h1 : countAbove df c = df.rows.countP
        (fun p => decide (p.pclass = c)
          && olderFlag (median (classAges df p.pclass)) p.age) := by
      unfold countAbove olderColumn
      rw [zip_map_self, List.filter_map, List.length_map,
        ← List.countP_eq_length_filter]
      rfl
    have h2 : (df.rows.filter (fun p => decide (p.pclass = c))).length
        = df.rows.countP (fun p => decide (p.pclass = c)) :=
      (List.countP_eq_length_filter _ _).symm
    rw [h1, h2]
    have h3 : df.rows.countP
        (fun p => decide (p.pclass = c)
          && olderFlag (median (classAges df p.pclass)) p.age)
        = (df.rows.filter (fun p => decide (p.pclass = c))).countP
            (fun p => olderFlag (median (classAges df p.pclass)) p.age) := by
      rw [List.countP_filter]
      apply List.countP_congr
      intro p _
      rw [Bool.and_comm]
    rw [h3]
    have h4 : (df.rows.filter (fun p => decide (p.pclass = c))).countP
        (fun p => olderFlag (median (classAges df p.pclass)) p.age)
        = (df.rows.filter (fun p => decide (p.pclass = c))).countP
            (fun p => olderFlag (median (classAges df c)) p.age) := by
      apply List.countP_congr
      intro p hp
      have hc : p.pclass = c := by
        have := (List.mem_filter.mp hp).2
        simpa using this
      rw [hc]
    rw [h4]
    rcases hM : median (classAges df c) with _ | m
    · have h5 : (df.rows.filter (fun p => decide (p.pclass = c))).countP
          (fun p => olderFlag none p.age) = 0 := by
        rw [List.countP_eq_zero]
        intro p _
        cases hpa : p.age <;> simp [olderFlag, hpa]
      rw [h5]
      exact Nat.zero_le _
    · have h6 : (df.rows.filter (fun p => decide (p.pclass = c))).countP
          (fun p => olderFlag (some m) p.age)
          = (classAges df c).countP (fun x => decide (m < x)) := by
        unfold classAges
        rw [List.countP_filterMap]
        apply List.countP_congr
        intro p _
        cases hpa : p.age <;> simp [olderFlag, hpa]
      rw [h6]
      have h7 := median_count_above hM
      have h8 : (classAges df c).length
          ≤ (df.rows.filter (fun p => decide (p.pclass = c))).length :=
        List.length_filterMap_le _ _
      omega
  · intro x hx
    rw [hx]
    simp [olderFlag]

/-- C6 (witness): on `dfC6`, class 2 (ages 30, 40 and a null) satisfies the
count bound, and the single class-3 passenger whose age 20 equals the
class-3 median exactly is classified not-above. -/
theorem determine_age_division_median_bound_witness :
    2 * countAbove dfC6 2
      ≤ (dfC6.rows.filter (fun p => decide (p.pclass = 2))).length
    ∧ olderFlag (median (classAges dfC6 3)) (some 20) = false :=
  ⟨(determine_age_division_median_bound dfC6 2).1,
    (determine_age_division_median_bound dfC6 3).2 20 (by decide)⟩

/-- C1 (counterexample): with the edges `[0, 12, 19, 59, 80]` that
`survival_demographics` builds on `dfC1` (maximum age 80), an age exactly
equal to the minimum edge 0 receives a null band — not the first band the
claim requires — as the materialized `age_group` column shows. -/
theorem age_banding_min_edge_counterexample :
    findBin [0, 12, 19, 59, 80] 0 = none
    ∧ (survival_demographics dfC1).2.age_group = some [none, some 3] := by
  refine ⟨by decide, by decide⟩

/-- C1 (amended): the binning of `survival_demographics` is
left-open/right-closed on every interval including the first: a non-null
age equal to an interior edge falls into the lower band, an age equal to
the minimum edge 0 yields a null band (the lowest edge is exclusive, since
`include_lowest` is not set), ages outside `(0, max]` yield a null band,
and a null age yields a null band. -/
theorem age_banding_exclusive_lowest (m : ℚ) (hm : 59 < m) :
    (∀ x : ℚ, x ≤ 0 → findBin [0, 12, 19, 59, m] x = none)
    ∧ findBin [0, 12, 19, 59, m] 12 = some 0
    ∧ findBin [0, 12, 19, 59, m] 19 = some 1
    ∧ findBin [0, 12, 19, 59, m] 59 = some 2
    ∧ findBin [0, 12, 19, 59, m] m = some 3
    ∧ (∀ x : ℚ, m < x → findBin [0, 12, 19, 59, m] x = none)
    ∧ Option.bind (none : Option ℚ) (findBin [0, 12, 19, 59, m]) = none := by
  refine ⟨?_, ?_, ?_, ?_, ?_, ?_, rfl⟩
  · intro x hx
    have h1 : ¬((0 : ℚ) < x ∧ x ≤ 12) := by rintro ⟨h, _⟩; linarith
    have h2 : ¬((12 : ℚ) < x ∧ x ≤ 19) := by rintro ⟨h, _⟩; linarith
    have h3 : ¬((19 : ℚ) < x ∧ x ≤ 59) := by rintro ⟨h, _⟩; linarith
    have h4 : ¬((59 : ℚ) < x ∧ x ≤ m) := by rintro ⟨h, _⟩; linarith
    simp [findBin, h1, h2, h3, h4]
  · norm_num [findBin]
  · norm_num [findBin]
  · norm_num [findBin]
  · have h1 : ¬((0 : ℚ) < m ∧ m ≤ 12) := by rintro ⟨_, h⟩; linarith
    have h2 : ¬((12 : ℚ) < m ∧ m ≤ 19) := by rintro ⟨_, h⟩; linarith
    have h3 : ¬((19 : ℚ) < m ∧ m ≤ 59) := by rintro ⟨_, h⟩; linarith
    have h4 : (59 : ℚ) < m ∧ m ≤ m := ⟨hm, le_refl m⟩
    simp [findBin, h1, h2, h3, h4]
  · intro x hx
    have h1 : ¬((0 : ℚ) < x ∧ x ≤ 12) := by rintro ⟨_, h⟩; linarith
    have h2 : ¬((12 : ℚ) < x ∧ x ≤ 19) := by rintro ⟨_, h⟩; linarith
    have h3 : ¬((19 : ℚ) < x ∧ x ≤ 59) := by rintro ⟨_, h⟩; linarith
    have h4 : ¬((59 : ℚ) < x ∧ x ≤ m) := by rintro ⟨_, h⟩; linarith
    simp [findBin, h1, h2, h3, h4]

/-- C1 (witness): the amended banding policy instantiated at the concrete
maximum edge 80: the interior edge 12 falls into the first band. -/
theorem age_banding_exclusive_lowest_witness :
    findBin [0, 12, 19, 59, (80 : ℚ)] 12 = some 0 :=
  (age_banding_exclusive_lowest 80 (by norm_num)).2.1

/-- C3 (counterexample): on `dfC3`, whose every row has a null age, the
`older_passenger` column is `False` everywhere (not null), and the
median-age-division view keeps those rows — its aggregate contains the
group `(Pclass 1, older_passenger False)` built from them instead of being
empty. -/
theorem null_age_rows_included_counterexample :
    (∀ p ∈ dfC3.rows, p.age = none)
    ∧ (determine_age_division dfC3).older_passenger = some [false, false]
    ∧ ((visualize_family_size dfC3).1.toOption.getD []).map
        (fun r => (r.pclass, r.older_passenger)) = [(1, false)] := by
  refine ⟨by decide, by decide, by decide⟩

/-- C3 (amended): the classifier is not null-propagating: a row whose age
is null gets `older_passenger = False` (pandas `NaN > x` is `False`), and
consequently the median-age-division survival view includes every null-age
row in the not-above group of its class. -/
theorem null_age_classified_not_above :
    (∀ (df : DataFrame) (i : Nat) (p : Passenger),
        df.rows.get? i = some p → p.age = none →
        (olderColumn df).get? i = some false)
    ∧ (∀ df : DataFrame, df.hasSurvived = true →
        ∀ p ∈ df.rows, p.age = none →
        ∃ out, (visualize_family_size df).1 = Except.ok out
          ∧ ∃ r ∈ out, r.pclass = p.pclass ∧ r.older_passenger = false) := by
  constructor
  · intro df i p hip hage
    unfold olderColumn
    rw [List.get?_map, hip]
    have : olderFlag (median (classAges df p.pclass)) p.age = false := by
      rw [hage]
      rcases median (classAges df p.pclass) with _ | mv <;> rfl
    simp [this]
  · intro df hs p hp hage
    refine ⟨bonusAgg ((determine_age_division df).rows.zip (olderColumn df)),
      ?_, ?_⟩
    · unfold visualize_family_size
      rw [if_pos hs]
    · have hzip : (determine_age_division df).rows.zip (olderColumn df)
          = df.rows.map (fun a =>
              (a, olderFlag (median (classAges df a.pclass)) a.age)) := by
        exact zip_map_self _ df.rows
      have hgp : olderFlag (median (classAges df p.pclass)) p.age = false := by
        rw [hage]
        rcases median (classAges df p.pclass) with _ | mv <;> rfl
      have hitem : (p, false) ∈
          (determine_age_division df).rows.zip (olderColumn df) := by
        rw [hzip]
        exact List.mem_map.mpr ⟨p, hp, by rw [hgp]⟩
      have hkey : ((p.pclass, false) : Nat × Bool) ∈
          ((determine_age_division df).rows.zip (olderColumn df)).map
            (fun x => (x.1.pclass, x.2)) :=
        List.mem_map.mpr ⟨(p, false), hitem, rfl⟩
      have hks : ((p.pclass, false) : Nat × Bool) ∈
          List.insertionSort keyLe2b (dedupFirst
            (((determine_age_division df).rows.zip (olderColumn df)).map
              (fun x => (x.1.pclass, x.2)))) :=
        (List.mem_insertionSort keyLe2b).mpr (mem_dedupFirst.mpr hkey)
      refine ⟨mkBonusRow ((determine_age_division df).rows.zip (olderColumn df))
        (p.pclass, false), ?_, rfl, rfl⟩
      unfold bonusAgg
      exact List.mem_map.mpr ⟨(p.pclass, false), hks, rfl⟩

/-- C3 (witness): the first row of `dfC3` has a null age and is classified
`False` by the `older_passenger` column. -/
theorem null_age_classified_not_above_witness :
    (olderColumn dfC3).get? 0 = some false :=
  null_age_classified_not_above.1 dfC3 0 pC3a rfl rfl

/-- C7 (counterexample): the extraction never strips whitespace: for the
comma-free name `"Smith "` the code returns the string unchanged, which
differs from its trimmed form, refuting `last_name == name.trim()`. -/
theorem last_name_no_trim_counterexample :
    (',' ∉ "Smith ".toList)
    ∧ splitFirstComma "Smith " = "Smith "
    ∧ pyStrip "Smith " = "Smith"
    ∧ splitFirstComma "Smith " ≠ pyStrip "Smith " := by
  refine ⟨by decide, by decide, by decide, by decide⟩

/-- C7 (amended): last-name extraction takes the characters before the
first comma with no whitespace trimming; a name containing no comma is
returned whole and unchanged (no error), and `"Smith, John"` yields
`"Smith"`. -/
theorem last_name_split_no_trim :
    (∀ s : String, ',' ∉ s.toList → splitFirstComma s = s)
    ∧ splitFirstComma "Smith, John" = "Smith" := by
  constructor
  · intro s hs
    unfold splitFirstComma
    have hall : ∀ c ∈ s.toList, (fun c => decide (c ≠ ',')) c = true := by
      intro c hc
      exact decide_eq_true (fun h => hs (h ▸ hc))
    rw [takeWhile_eq_self_of_forall hall]
    cases s
    rfl
  · decide

/-- C7 (witness): a comma-free name is returned unchanged. -/
theorem last_name_split_no_trim_witness :
    splitFirstComma "Bob" = "Bob" :=
  last_name_split_no_trim.1 "Bob" (by decide)

/-- C8 (counterexample): on `dfC8` the two last names occur once each, yet
`"Zeta"` is listed before the alphabetically smaller `"Alpha"` (the hash
table's first-occurrence order, not an alphabetical tie-break). -/
theorem last_names_tiebreak_counterexample :
    last_names dfC8 = [("Zeta", 1), ("Alpha", 1)]
    ∧ ("Alpha" : String) < "Zeta" := by
  refine ⟨by decide, String.lt_iff_toList_lt.mpr (by decide)⟩

/-- C8 (amended): `last_names` returns each distinct last name with its
occurrence count, sorted descending by count; equal counts keep the order
in which the names first occur in the input, not alphabetical order. -/
theorem last_names_sorted_desc (df : DataFrame) :
    (last_names df).Sorted countGe
    ∧ ∀ q ∈ last_names df, q.2 = (lastNameList df).count q.1 := by
  constructor
  · unfold last_names
    exact List.sorted_insertionSort countGe _
  · intro q hq
    unfold last_names at hq
    have hq2 : q ∈ (dedupFirst (lastNameList df)).map
        (fun s => (s, (lastNameList df).count s)) :=
      (List.mem_insertionSort countGe).mp hq
    rcases List.mem_map.mp hq2 with ⟨s, _, rfl⟩
    rfl

/-- C8 (witness): the sortedness and the count of `"Zeta"` on the concrete
table `dfC8`. -/
theorem last_names_sorted_desc_witness :
    (last_names dfC8).Sorted countGe
    ∧ ("Zeta", 1).2 = (lastNameList dfC8).count ("Zeta", 1).1 :=
  ⟨(last_names_sorted_desc dfC8).1,
    (last_names_sorted_desc dfC8).2 ("Zeta", 1) (by decide)⟩

